import Mathlib

/-!
Verification of the CoinPayments Rust client (`itsbalamurali/coinpayments-rs`)
against its natural-language specification.

The development shallowly embeds the relevant source functions:
bytes are `Nat` values below 256, 64-bit machine words are `Nat` values
reduced modulo `2 ^ 64`, Rust `String`/`&str` values are Lean `String`s,
and byte slices (`&[u8]`, `Vec<u8>`) are `List Nat`.  Fallible Rust
functions returning `Result` are embedded as `Except` / `Option`.

The cryptographic core (`hmac`/`sha2` crates used by
`utils::generate_hmac_signature`, `webhooks::verify_webhook_signature`)
is embedded as an executable HMAC-SHA-512 over byte lists, following
FIPS 180-4 / RFC 2104 exactly as the Rust crates implement them.
-/

namespace CoinPayments

/-! ## 64-bit word arithmetic (Rust `u64` semantics) -/

/-- Reduce a natural number to a 64-bit word (`u64` wrapping). -/
def w64 (n : Nat) : Nat := n % (2 ^ 64)

/-- Wrapping 64-bit addition. -/
def wadd (a b : Nat) : Nat := (a + b) % (2 ^ 64)

/-- 64-bit right rotation (`u64::rotate_right`). -/
def rotr (x n : Nat) : Nat := (x <<< (64 - n) ||| x >>> n) % (2 ^ 64)

/-! ## SHA-512 (FIPS 180-4), as implemented by the `sha2` crate -/

/-- The 80 SHA-512 round constants. -/
def sha512K : List Nat := [
  4794697086780616226, 8158064640168781261, 13096744586834688815, 16840607885511220156,
  4131703408338449720, 6480981068601479193, 10538285296894168987, 12329834152419229976,
  15566598209576043074, 1334009975649890238, 2608012711638119052, 6128411473006802146,
  8268148722764581231, 9286055187155687089, 11230858885718282805, 13951009754708518548,
  16472876342353939154, 17275323862435702243, 1135362057144423861, 2597628984639134821,
  3308224258029322869, 5365058923640841347, 6679025012923562964, 8573033837759648693,
  10970295158949994411, 12119686244451234320, 12683024718118986047, 13788192230050041572,
  14330467153632333762, 15395433587784984357, 489312712824947311, 1452737877330783856,
  2861767655752347644, 3322285676063803686, 5560940570517711597, 5996557281743188959,
  7280758554555802590, 8532644243296465576, 9350256976987008742, 10552545826968843579,
  11727347734174303076, 12113106623233404929, 14000437183269869457, 14369950271660146224,
  15101387698204529176, 15463397548674623760, 17586052441742319658, 1182934255886127544,
  1847814050463011016, 2177327727835720531, 2830643537854262169, 3796741975233480872,
  4115178125766777443, 5681478168544905931, 6601373596472566643, 7507060721942968483,
  8399075790359081724, 8693463985226723168, 9568029438360202098, 10144078919501101548,
  10430055236837252648, 11840083180663258601, 13761210420658862357, 14299343276471374635,
  14566680578165727644, 15097957966210449927, 16922976911328602910, 17689382322260857208,
  500013540394364858, 748580250866718886, 1242879168328830382, 1977374033974150939,
  2944078676154940804, 3659926193048069267, 4368137639120453308, 4836135668995329356,
  5532061633213252278, 6448918945643986474, 6902733635092675308, 7801388544844847127
]

/-- The SHA-512 working state: eight 64-bit words. -/
structure Sha512State where
  a : Nat
  b : Nat
  c : Nat
  d : Nat
  e : Nat
  f : Nat
  g : Nat
  h : Nat

/-- The SHA-512 initial hash value. -/
def sha512H0 : Sha512State :=
  ⟨7640891576956012808, 13503953896175478587, 4354685564936845355, 11912009170470909681,
   5840696475078001361, 11170449401992604703, 2270897969802886507, 6620516959819538809⟩

/-- Big-endian assembly of a list of bytes into one word. -/
def bytesToWord (bs : List Nat) : Nat := bs.foldl (fun acc b => acc * 256 + b) 0

/-- Message padding: append `0x80`, zeros, and the 128-bit big-endian bit length,
so the total length is a multiple of 128 bytes. -/
def sha512Pad (msg : List Nat) : List Nat :=
  let l := msg.length
  let zeros := (112 - (l + 1) % 128) % 128
  let bitLen := 8 * l
  msg ++ [128] ++ List.replicate zeros 0 ++
    (List.range 16).map (fun i => bitLen >>> (8 * (15 - i)) % 256)

/-- The 80-entry message schedule of one 128-byte block, built newest-first
(so the expansion reads `W[t-2]`, `W[t-7]`, `W[t-15]`, `W[t-16]` at the
constant offsets 1, 6, 14, 15 from the head). -/
def sha512ScheduleRev (block : List Nat) : List Nat :=
  (List.range 80).foldl (fun ws t =>
    if t < 16 then bytesToWord ((block.drop (8 * t)).take 8) :: ws
    else
      let w15 := ws.getD 14 0
      let w2 := ws.getD 1 0
      let s0 := (rotr w15 1) ^^^ (rotr w15 8) ^^^ (w15 >>> 7)
      let s1 := (rotr w2 19) ^^^ (rotr w2 61) ^^^ (w2 >>> 6)
      wadd (wadd (ws.getD 15 0) s0) (wadd (ws.getD 6 0) s1) :: ws) []

/-- The 80-entry message schedule of one 128-byte block, oldest-first. -/
def sha512Schedule (block : List Nat) : List Nat := (sha512ScheduleRev block).reverse

/-- One round of the SHA-512 compression function. -/
def sha512Round (st : Sha512State) (k w : Nat) : Sha512State :=
  let s1 := (rotr st.e 14) ^^^ (rotr st.e 18) ^^^ (rotr st.e 41)
  let ch := (st.e &&& st.f) ^^^ ((st.e ^^^ (2 ^ 64 - 1)) &&& st.g)
  let t1 := wadd (wadd st.h s1) (wadd ch (wadd k w))
  let s0 := (rotr st.a 28) ^^^ (rotr st.a 34) ^^^ (rotr st.a 39)
  let maj := (st.a &&& st.b) ^^^ (st.a &&& st.c) ^^^ (st.b &&& st.c)
  let t2 := wadd s0 maj
  ⟨wadd t1 t2, st.a, st.b, st.c, wadd st.d t1, st.e, st.f, st.g⟩

/-- Compress one 128-byte block into the running state. -/
def sha512Compress (st : Sha512State) (block : List Nat) : Sha512State :=
  let ws := sha512Schedule block
  let fin := (sha512K.zip ws).foldl (fun s kw => sha512Round s kw.1 kw.2) st
  ⟨wadd st.a fin.a, wadd st.b fin.b, wadd st.c fin.c, wadd st.d fin.d,
   wadd st.e fin.e, wadd st.f fin.f, wadd st.g fin.g, wadd st.h fin.h⟩

/-- Split a padded message into 128-byte blocks and fold the compression. -/
def sha512Blocks (st : Sha512State) (padded : List Nat) : Sha512State :=
  (List.range (padded.length / 128)).foldl
    (fun s i => sha512Compress s ((padded.drop (128 * i)).take 128)) st

/-- Big-endian serialization of one 64-bit word into eight bytes. -/
def wordBytes (w : Nat) : List Nat :=
  [w / 2 ^ 56 % 256, w / 2 ^ 48 % 256, w / 2 ^ 40 % 256, w / 2 ^ 32 % 256,
   w / 2 ^ 24 % 256, w / 2 ^ 16 % 256, w / 2 ^ 8 % 256, w % 256]

/-- SHA-512 of a byte list: a 64-byte digest. -/
def sha512 (msg : List Nat) : List Nat :=
  let st := sha512Blocks sha512H0 (sha512Pad msg)
  wordBytes st.a ++ wordBytes st.b ++ wordBytes st.c ++ wordBytes st.d ++
    wordBytes st.e ++ wordBytes st.f ++ wordBytes st.g ++ wordBytes st.h

/-! ## HMAC (RFC 2104), as implemented by the `hmac` crate

`Hmac::<Sha512>::new_from_slice` accepts a key of any length: a key longer
than the 128-byte block is first hashed, then the key is zero-padded to the
block size (this is why `new_from_slice` never returns an error for any key). -/

/-- HMAC-SHA-512 over byte lists. -/
def hmacSha512 (key msg : List Nat) : List Nat :=
  let k0 := if 128 < key.length then sha512 key else key
  let kp := k0 ++ List.replicate (128 - k0.length) 0
  let ipad := kp.map (fun b => b ^^^ 54)
  let opad := kp.map (fun b => b ^^^ 92)
  sha512 (opad ++ sha512 (ipad ++ msg))

/-! ## Hex encoding (the `hex` crate's `hex::encode`) -/

/-- The lowercase hexadecimal digit for one nibble (`hex::encode` indexes the
alphabet `0123456789abcdef` by each nibble, which is always below 16;
the catch-all branch is unreachable there). -/
def hexDigitChar : Nat → Char
  | 0 => '0' | 1 => '1' | 2 => '2' | 3 => '3'
  | 4 => '4' | 5 => '5' | 6 => '6' | 7 => '7'
  | 8 => '8' | 9 => '9' | 10 => 'a' | 11 => 'b'
  | 12 => 'c' | 13 => 'd' | 14 => 'e' | _ => 'f'

/-- Hex encoding of a byte list as a list of characters, two per byte. -/
def hexChars (bs : List Nat) : List Char :=
  bs.flatMap (fun b => [hexDigitChar (b / 16), hexDigitChar (b % 16)])

/-- Hex encoding of a byte list as a string (`hex::encode`). -/
def hexEncode (bs : List Nat) : String := String.mk (hexChars bs)

/-! ## UTF-8 byte view of strings (Rust `str::as_bytes`) -/

/-- UTF-8 encoding of one character (scalar values are below `0x110000` and
never surrogates, so the four arms are exhaustive). -/
def charUtf8 (c : Char) : List Nat :=
  let v := c.toNat
  if v < 128 then [v]
  else if v < 2048 then [192 + v / 64, 128 + v % 64]
  else if v < 65536 then [224 + v / 4096, 128 + v / 64 % 64, 128 + v % 64]
  else [240 + v / 262144, 128 + v / 4096 % 64, 128 + v / 64 % 64, 128 + v % 64]

/-- The UTF-8 bytes of a string (`str::as_bytes`). -/
def strBytes (s : String) : List Nat := s.data.flatMap charUtf8

/-! ## `utils::generate_hmac_signature` and
`CoinPaymentsClient::generate_signature` (src/lib.rs, src/utils.rs) -/

/-- Embedding of `utils::generate_hmac_signature`: HMAC-SHA-512 of the UTF-8
bytes of `data` keyed by the UTF-8 bytes of `private_key`, hex-encoded. -/
def generate_hmac_signature (private_key data : String) : String :=
  hexEncode (hmacSha512 (strBytes private_key) (strBytes data))

/-- Embedding of `CoinPaymentsClient::generate_signature` (src/lib.rs:212-233).
The client's two credential fields are passed explicitly.  Rust's
`str::to_uppercase` is embedded as `String.toUpper`. -/
def generate_signature (client_id client_secret timestamp method endpoint body : String) :
    String :=
  let data_to_sign := client_id ++ timestamp ++ method.toUpper ++ endpoint
  let data_with_body := if body = "" then data_to_sign else data_to_sign ++ body
  generate_hmac_signature client_secret data_with_body

/-! ## Lossy UTF-8 decoding (Rust `String::from_utf8_lossy`)

`utils::validate_webhook_signature` passes the signed byte buffer through
`String::from_utf8_lossy` before HMAC-ing it.  The embedding follows the
byte-exact semantics of `core::str`'s UTF-8 validation: each maximal invalid
subpart is replaced by U+FFFD, and the per-lead-byte ranges of the first
continuation byte (`0xE0` demands `0xA0..=0xBF`, `0xED` demands `0x80..=0x9F`,
`0xF0` demands `0x90..=0xBF`, `0xF4` demands `0x80..=0x8F`) are exactly those
of `run_utf8_validation`. -/

/-- The Unicode replacement character U+FFFD. -/
def replacementChar : Char := Char.ofNat 65533

/-- Admissible first continuation byte after a three-byte lead. -/
def utf8Cont3Ok (b0 b1 : Nat) : Prop :=
  (b0 = 224 ∧ 160 ≤ b1 ∧ b1 < 192) ∨
  (225 ≤ b0 ∧ b0 ≤ 236 ∧ 128 ≤ b1 ∧ b1 < 192) ∨
  (b0 = 237 ∧ 128 ≤ b1 ∧ b1 < 160) ∨
  (238 ≤ b0 ∧ b0 ≤ 239 ∧ 128 ≤ b1 ∧ b1 < 192)

instance (b0 b1 : Nat) : Decidable (utf8Cont3Ok b0 b1) := by
  unfold utf8Cont3Ok; infer_instance

/-- Admissible first continuation byte after a four-byte lead. -/
def utf8Cont4Ok (b0 b1 : Nat) : Prop :=
  (b0 = 240 ∧ 144 ≤ b1 ∧ b1 < 192) ∨
  (241 ≤ b0 ∧ b0 ≤ 243 ∧ 128 ≤ b1 ∧ b1 < 192) ∨
  (b0 = 244 ∧ 128 ≤ b1 ∧ b1 < 144)

instance (b0 b1 : Nat) : Decidable (utf8Cont4Ok b0 b1) := by
  unfold utf8Cont4Ok; infer_instance

/-- Lossy UTF-8 decoding of a byte list, replacing each maximal invalid
subpart with U+FFFD (`String::from_utf8_lossy`). -/
def utf8Lossy : List Nat → List Char
  | [] => []
  | b0 :: rest =>
    if b0 < 128 then Char.ofNat b0 :: utf8Lossy rest
    else if b0 < 194 then replacementChar :: utf8Lossy rest
    else if b0 < 224 then
      match rest with
      | b1 :: rest2 =>
        if 128 ≤ b1 ∧ b1 < 192 then
          Char.ofNat ((b0 - 192) * 64 + (b1 - 128)) :: utf8Lossy rest2
        else replacementChar :: utf8Lossy (b1 :: rest2)
      | [] => [replacementChar]
    else if b0 < 240 then
      match rest with
      | b1 :: rest2 =>
        if utf8Cont3Ok b0 b1 then
          match rest2 with
          | b2 :: rest3 =>
            if 128 ≤ b2 ∧ b2 < 192 then
              Char.ofNat ((b0 - 224) * 4096 + (b1 - 128) * 64 + (b2 - 128)) ::
                utf8Lossy rest3
            else replacementChar :: utf8Lossy (b2 :: rest3)
          | [] => [replacementChar]
        else replacementChar :: utf8Lossy (b1 :: rest2)
      | [] => [replacementChar]
    else if b0 < 245 then
      match rest with
      | b1 :: rest2 =>
        if utf8Cont4Ok b0 b1 then
          match rest2 with
          | b2 :: rest3 =>
            if 128 ≤ b2 ∧ b2 < 192 then
              match rest3 with
              | b3 :: rest4 =>
                if 128 ≤ b3 ∧ b3 < 192 then
                  Char.ofNat ((b0 - 240) * 262144 + (b1 - 128) * 4096 +
                      (b2 - 128) * 64 + (b3 - 128)) :: utf8Lossy rest4
                else replacementChar :: utf8Lossy (b3 :: rest4)
              | [] => [replacementChar]
            else replacementChar :: utf8Lossy (b2 :: rest3)
          | [] => [replacementChar]
        else replacementChar :: utf8Lossy (b1 :: rest2)
      | [] => [replacementChar]
    else replacementChar :: utf8Lossy rest
  termination_by l => l.length
  decreasing_by all_goals (simp_wf <;> omega)

/-! ## Webhook signature verification (src/webhooks.rs, src/utils.rs) -/

/-- Embedding of `webhooks::WebhookHeaders`. -/
structure WebhookHeaders where
  client_id : String
  timestamp : String
  signature : String

/-- Embedding of `webhooks::verify_webhook_signature` (src/webhooks.rs:377-402):
HMAC-SHA-512 over the raw bytes client_id ++ timestamp ++ payload, compared
hex-encoded against the received signature.  (`new_from_slice` never fails, so
the early-return-false arm of the Rust source is unreachable.) -/
def verify_webhook_signature (private_key : String) (headers : WebhookHeaders)
    (payload : List Nat) : Bool :=
  let data_to_sign := strBytes headers.client_id ++ strBytes headers.timestamp ++ payload
  let expected_signature := hexEncode (hmacSha512 (strBytes private_key) data_to_sign)
  expected_signature == headers.signature

/-- Embedding of `utils::validate_webhook_signature` (src/utils.rs:284-301):
the signed buffer is passed through `String::from_utf8_lossy` before being
HMAC-ed by `generate_hmac_signature`. -/
def validate_webhook_signature (private_key client_id timestamp : String)
    (payload : List Nat) (received_signature : String) : Bool :=
  let data_to_sign := strBytes client_id ++ strBytes timestamp ++ payload
  let expected_signature :=
    generate_hmac_signature private_key (String.mk (utf8Lossy data_to_sign))
  expected_signature == received_signature

/-! ## Error type (src/lib.rs `CoinPaymentsError`)

The `Http` and `Json` variants wrap foreign error values in the source; they
are embedded carrying only a message string. -/

/-- Embedding of `CoinPaymentsError` (src/lib.rs:82-110). -/
inductive CoinPaymentsError where
  | Http : String → CoinPaymentsError
  | Json : String → CoinPaymentsError
  | Api : String → CoinPaymentsError
  | Authentication : CoinPaymentsError
  | InvalidParameters : String → CoinPaymentsError
  | Network : String → CoinPaymentsError
  | RateLimit : CoinPaymentsError
  | NotFound : CoinPaymentsError
  | InsufficientFunds : CoinPaymentsError
deriving DecidableEq, Repr

/-! ## RFC 3339 timestamp parsing (chrono `DateTime::parse_from_rfc3339`)

`webhooks::is_webhook_timestamp_valid` and `utils::iso8601_to_timestamp` both
parse their input with chrono's RFC 3339 parser and then call
`DateTime::timestamp()` (seconds since the Unix epoch, negative before 1970,
computed on the proleptic Gregorian calendar) before casting the `i64` to
`u64` with `as`.  The parser below follows chrono's `parse_rfc3339`:
fixed-width decimal fields, `T`/`t`/space as the date-time separator,
optional fractional seconds (at least one digit, ignored by `timestamp()`),
`Z`/`z` or a signed `HH:MM` offset, calendar validation of every field, and
second `60` (leap second) mapped to the same `timestamp()` value as second
`59`. -/

/-- ASCII decimal digit test. -/
def isAsciiDigit (c : Char) : Bool := 48 ≤ c.toNat && c.toNat ≤ 57

/-- Read exactly `n` ASCII digits, most significant first. -/
def readDigits : Nat → Nat → List Char → Option (Nat × List Char)
  | 0, acc, cs => some (acc, cs)
  | n + 1, acc, c :: cs =>
      if isAsciiDigit c then readDigits n (acc * 10 + (c.toNat - 48)) cs else none
  | _ + 1, _, [] => none

/-- Consume one expected character. -/
def expectChar (ch : Char) : List Char → Option (List Char)
  | c :: cs => if c = ch then some cs else none
  | [] => none

/-- Gregorian leap-year rule. -/
def isLeapYear (y : Nat) : Bool :=
  y % 4 == 0 && (y % 100 != 0 || y % 400 == 0)

/-- Number of days in a month (calendar validation). -/
def daysInMonth (y m : Nat) : Nat :=
  if m = 2 then (if isLeapYear y then 29 else 28)
  else if m = 4 ∨ m = 6 ∨ m = 9 ∨ m = 11 then 30
  else 31

/-- Days between a proleptic-Gregorian civil date and 1970-01-01 (the
standard days-from-civil algorithm, with the year shifted by +400 so all
intermediate values are natural numbers; valid for years 0-9999). -/
def daysFromCivil (y m d : Nat) : Int :=
  let yy := if m ≤ 2 then y + 399 else y + 400
  let era := yy / 400
  let yoe := yy - era * 400
  let mp := if m ≤ 2 then m + 9 else m - 3
  let doy := (153 * mp + 2) / 5 + d - 1
  let doe := yoe * 365 + yoe / 4 - yoe / 100 + doy
  (era * 146097 + doe : Nat) - (865565 : Int)

/-- The `timestamp()` value of a parsed date-time with a UTC offset of
`off` seconds (a leap second `60` yields the same value as second `59`). -/
def epochFromFields (y mo d h mi se : Nat) (off : Int) : Int :=
  daysFromCivil y mo d * 86400 +
    ((h * 3600 + mi * 60 + (if se = 60 then 59 else se) : Nat) : Int) - off

/-- Parse the `YYYY-MM-DD` date part. -/
def parseDate (cs : List Char) : Option (Nat × Nat × Nat × List Char) :=
  match readDigits 4 0 cs with
  | none => none
  | some (y, cs) =>
  match expectChar '-' cs with
  | none => none
  | some cs =>
  match readDigits 2 0 cs with
  | none => none
  | some (mo, cs) =>
  match expectChar '-' cs with
  | none => none
  | some cs =>
  match readDigits 2 0 cs with
  | none => none
  | some (d, cs) => some (y, mo, d, cs)

/-- Consume the date-time separator (`T`, `t` or space, as chrono accepts). -/
def expectSep : List Char → Option (List Char)
  | c :: cs => if c = 'T' ∨ c = 't' ∨ c = ' ' then some cs else none
  | [] => none

/-- Parse the `HH:MM:SS` time part. -/
def parseTime (cs : List Char) : Option (Nat × Nat × Nat × List Char) :=
  match readDigits 2 0 cs with
  | none => none
  | some (h, cs) =>
  match expectChar ':' cs with
  | none => none
  | some cs =>
  match readDigits 2 0 cs with
  | none => none
  | some (mi, cs) =>
  match expectChar ':' cs with
  | none => none
  | some cs =>
  match readDigits 2 0 cs with
  | none => none
  | some (se, cs) => some (h, mi, se, cs)

/-- Skip optional fractional seconds: a dot followed by at least one digit
(ignored by `timestamp()`). -/
def skipFraction : List Char → Option (List Char)
  | c :: cs =>
    if c = '.' then
      if cs.takeWhile isAsciiDigit = [] then none else some (cs.dropWhile isAsciiDigit)
    else some (c :: cs)
  | [] => some []

/-- Parse the timezone offset (`Z`/`z` or signed `HH:MM`), in seconds,
requiring the end of the input. -/
def parseOffset : List Char → Option Int
  | c :: cs =>
    if c = 'Z' ∨ c = 'z' then (if cs = [] then some 0 else none)
    else if c = '+' ∨ c = '-' then
      match readDigits 2 0 cs with
      | none => none
      | some (oh, cs2) =>
      match expectChar ':' cs2 with
      | none => none
      | some cs2 =>
      match readDigits 2 0 cs2 with
      | none => none
      | some (om, cs3) =>
        if cs3 = [] ∧ oh ≤ 23 ∧ om ≤ 59 then
          some (if c = '+' then (oh * 3600 + om * 60 : Int)
                else -(oh * 3600 + om * 60 : Int))
        else none
    else none
  | [] => none

/-- RFC 3339 parsing to a Unix timestamp in seconds
(chrono `parse_from_rfc3339` followed by `timestamp()`). -/
def parseRfc3339 (cs : List Char) : Option Int :=
  match parseDate cs with
  | none => none
  | some (y, mo, d, cs) =>
  match expectSep cs with
  | none => none
  | some cs =>
  match parseTime cs with
  | none => none
  | some (h, mi, se, cs) =>
  match skipFraction cs with
  | none => none
  | some cs =>
  match parseOffset cs with
  | none => none
  | some off =>
    if 1 ≤ mo ∧ mo ≤ 12 ∧ 1 ≤ d ∧ d ≤ daysInMonth y mo ∧ h ≤ 23 ∧ mi ≤ 59 ∧ se ≤ 60 then
      some (epochFromFields y mo d h mi se off)
    else none

/-- Rust `as u64` on an `i64`: reduction modulo `2 ^ 64` (a negative
timestamp wraps to `2 ^ 64 + t`). -/
def rustCastU64 (t : Int) : Nat := (t % (2 ^ 64 : Int)).toNat

/-- Embedding of `webhooks::is_webhook_timestamp_valid`
(src/webhooks.rs:448-465).  The current time (`SystemTime::now` as seconds, a
`u64`) is passed explicitly; `now.saturating_sub(webhook_time)` is `Nat`
subtraction. -/
def is_webhook_timestamp_valid (now : Nat) (timestamp : String)
    (tolerance_seconds : Nat) : Bool :=
  match parseRfc3339 timestamp.data with
  | none => false
  | some t => decide (now - rustCastU64 t ≤ tolerance_seconds)

/-- Embedding of `utils::iso8601_to_timestamp` (src/utils.rs:145-151):
`dt.timestamp() as u64`, or an `InvalidParameters` error. -/
def iso8601_to_timestamp (iso_string : String) : Except CoinPaymentsError Nat :=
  match parseRfc3339 iso_string.data with
  | some t => .ok (rustCastU64 t)
  | none => .error (.InvalidParameters ("Invalid ISO 8601 date: " ++ iso_string))

/-! ## JSON values and serde-style decoding (src/lib.rs response handling)

`serde_json::Value` is embedded as an inductive `Json`; numbers are embedded
as integers (no claim involves floating-point JSON), and parsed values have
unique object keys (`serde_json`'s map keeps one entry per key), so
first-occurrence lookup models `Value::get` exactly. -/

/-- Embedding of `serde_json::Value`. -/
inductive Json where
  | null : Json
  | bool : Bool → Json
  | num : Int → Json
  | str : String → Json
  | arr : List Json → Json
  | obj : List (String × Json) → Json

/-- `Value::get` with a string key: field lookup on objects, `None` on every
other variant. -/
def jsonGet (j : Json) (key : String) : Option Json :=
  match j with
  | .obj fields => fields.lookup key
  | _ => none

/-- `Value::as_str`. -/
def valueAsStr : Json → Option String
  | .str s => some s
  | _ => none

/-- Embedding of `utils::extract_api_error_message` (src/utils.rs:177-194).
The body arrives as its raw text together with its JSON parse (`none` when
the text is not valid JSON), since the embedding contains no JSON text
parser. -/
def extract_api_error_message (parsed : Option Json) (response_text : String) :
    String :=
  match parsed with
  | some json =>
    match (jsonGet json "error").bind valueAsStr with
    | some message => message
    | none =>
      match (jsonGet json "message").bind valueAsStr with
      | some message => message
      | none => response_text
  | none => response_text

/-- Embedding of `ApiError` (src/lib.rs:127-133). -/
structure ApiError where
  code : String
  message : String
  details : Option Json

/-- Embedding of `PaginationMetadata` (src/lib.rs:136-142). -/
structure PaginationMetadata where
  page : Nat
  per_page : Nat
  total : Nat
  total_pages : Nat

/-- Embedding of `ApiResponse<T>` (src/lib.rs:116-124). -/
structure ApiResponse (α : Type) where
  data : Option α
  error : Option ApiError
  pagination : Option PaginationMetadata

/-- serde decoding of a JSON string. -/
def decodeString : Json → Option String
  | .str s => some s
  | _ => none

/-- serde decoding of a `u32`: an integer in range. -/
def decodeU32 : Json → Option Nat
  | .num n => if 0 ≤ n ∧ n < 2 ^ 32 then some n.toNat else none
  | _ => none

/-- serde access to a required struct field: the field must be present and
must decode. -/
def reqField (decode : Json → Option α) (fields : List (String × Json))
    (key : String) : Option α :=
  (fields.lookup key).bind decode

/-- serde access to an `Option<T>` struct field: absent or `null` gives
`none`; any other value must decode. -/
def optField (decode : Json → Option α) (fields : List (String × Json))
    (key : String) : Option (Option α) :=
  match fields.lookup key with
  | none => some none
  | some .null => some none
  | some j => (decode j).map some

/-- The derived serde decoder of `ApiError` (`details` is
`Option<serde_json::Value>`, so any non-null value is accepted there). -/
def decodeApiError : Json → Option ApiError
  | .obj fields =>
    match reqField decodeString fields "code" with
    | none => none
    | some code =>
    match reqField decodeString fields "message" with
    | none => none
    | some message =>
    match optField some fields "details" with
    | none => none
    | some details => some ⟨code, message, details⟩
  | _ => none

/-- The derived serde decoder of `PaginationMetadata`. -/
def decodePaginationMetadata : Json → Option PaginationMetadata
  | .obj fields =>
    match reqField decodeU32 fields "page" with
    | none => none
    | some page =>
    match reqField decodeU32 fields "per_page" with
    | none => none
    | some per_page =>
    match reqField decodeU32 fields "total" with
    | none => none
    | some total =>
    match reqField decodeU32 fields "total_pages" with
    | none => none
    | some total_pages => some ⟨page, per_page, total, total_pages⟩
  | _ => none

/-- The derived serde decoder of `ApiResponse<T>`, given a decoder of `T`. -/
def decodeApiResponse (decodeT : Json → Option α) : Json → Option (ApiResponse α)
  | .obj fields =>
    match optField decodeT fields "data" with
    | none => none
    | some data =>
    match optField decodeApiError fields "error" with
    | none => none
    | some error =>
    match optField decodePaginationMetadata fields "pagination" with
    | none => none
    | some pagination => some ⟨data, error, pagination⟩
  | _ => none

/-- `reqwest::StatusCode::is_success`: the range 200-299. -/
def statusIsSuccess (status : Nat) : Bool := 200 ≤ status && status < 300

/-- Embedding of `CoinPaymentsClient::handle_response` (src/lib.rs:349-395),
specialized over a serde decoder `decodeT` of the expected type `T`.  The
body arrives as its text plus its JSON parse (`none` when the text is not
valid JSON): `serde_json::from_str::<T>` is `body.bind decodeT` and
`from_str::<ApiResponse<T>>` is `body.bind (decodeApiResponse decodeT)`.
Only the numeric part of `reqwest::StatusCode`'s `Display` is modeled in the
generic error message (its canonical-reason suffix is dropped), and the
serde parse diagnostic interpolated into the final fallback message is not
modeled; no claim depends on either. -/
def handle_response (decodeT : Json → Option α) (status : Nat)
    (body : Option Json) (response_text : String) : Except CoinPaymentsError α :=
  if !statusIsSuccess status then
    let error_message := extract_api_error_message body response_text
    .error (
      if status = 401 then .Authentication
      else if status = 404 then .NotFound
      else if status = 429 then .RateLimit
      else .Api ("HTTP " ++ toString status ++ ": " ++ error_message))
  else
    match body.bind decodeT with
    | some value => .ok value
    | none =>
      match body.bind (decodeApiResponse decodeT) with
      | some api_response =>
        match api_response.error with
        | some error => .error (.Api ("API Error: " ++ error.message))
        | none =>
          match api_response.data with
          | some data => .ok data
          | none => .error (.Api "No data in response")
      | none =>
        .error (.Api ("Failed to parse response - Response: " ++ response_text))

/-- Embedding of `PingResponse` (src/lib.rs:429-433), used as a concrete
expected type in witnesses. -/
structure PingResponse where
  message : String
  timestamp : String
  version : String
deriving DecidableEq

/-- The derived serde decoder of `PingResponse`. -/
def decodePingResponse : Json → Option PingResponse
  | .obj fields =>
    match reqField decodeString fields "message" with
    | none => none
    | some message =>
    match reqField decodeString fields "timestamp" with
    | none => none
    | some timestamp =>
    match reqField decodeString fields "version" with
    | none => none
    | some version => some ⟨message, timestamp, version⟩
  | _ => none

/-! ## Webhook header extraction (src/webhooks.rs) -/

/-- Embedding of `webhooks::parse_webhook_headers` (src/webhooks.rs:414-441).
The `HashMap<String, String>` is embedded as its lookup function. -/
def parse_webhook_headers (header_map : String → Option String) :
    Except CoinPaymentsError WebhookHeaders :=
  match header_map "X-CoinPayments-Client" with
  | none => .error (.Api "Missing X-CoinPayments-Client header")
  | some client_id =>
  match header_map "X-CoinPayments-Timestamp" with
  | none => .error (.Api "Missing X-CoinPayments-Timestamp header")
  | some timestamp =>
  match header_map "X-CoinPayments-Signature" with
  | none => .error (.Api "Missing X-CoinPayments-Signature header")
  | some signature => .ok ⟨client_id, timestamp, signature⟩

/-! ## Pagination (src/utils.rs) -/

/-- Embedding of `utils::PaginationInfo` (src/utils.rs:320-328). -/
structure PaginationInfo where
  page : Nat
  per_page : Nat
  total : Nat
  total_pages : Nat
  has_next : Bool
  has_prev : Bool
deriving DecidableEq

/-- Embedding of `utils::calculate_pagination` (src/utils.rs:306-317) under
Rust release-profile `u32` semantics: `total + per_page - 1` is computed
with wrapping `u32` arithmetic, and the division by `per_page = 0` panics
(in every build profile), embedded as `none`. -/
def calculate_pagination (total page per_page : Nat) : Option PaginationInfo :=
  if per_page = 0 then none
  else
    let total_pages := ((total + per_page) % 2 ^ 32 + 2 ^ 32 - 1) % 2 ^ 32 / per_page
    some ⟨page, per_page, total, total_pages,
      decide (page < total_pages), decide (1 < page)⟩

/-! ## Helper lemmas about the digest and hex encoding -/

/-- The lowercase hexadecimal alphabet used by `hex::encode`. -/
def lowerHexAlphabet : List Char := "0123456789abcdef".data

/-- Membership in the lowercase hexadecimal alphabet. -/
def isLowerHexDigit (c : Char) : Prop := c ∈ lowerHexAlphabet

theorem hexDigitChar_mem (n : Nat) : isLowerHexDigit (hexDigitChar n) := by
  unfold isLowerHexDigit lowerHexAlphabet
  rcases n with _|_|_|_|_|_|_|_|_|_|_|_|_|_|_|n <;> simp only [hexDigitChar] <;> decide

theorem hexChars_mem (bs : List Nat) : ∀ c ∈ hexChars bs, isLowerHexDigit c := by
  intro c hc
  simp only [hexChars, List.mem_flatMap, List.mem_cons, List.not_mem_nil, or_false] at hc
  obtain ⟨b, -, hc⟩ := hc
  rcases hc with h | h <;> (subst h; exact hexDigitChar_mem _)

theorem hexChars_length (bs : List Nat) : (hexChars bs).length = 2 * bs.length := by
  induction bs with
  | nil => rfl
  | cons hd tl ih =>
    simp only [hexChars, List.flatMap_cons] at *
    simp [ih]
    omega

theorem sha512_length (msg : List Nat) : (sha512 msg).length = 64 := by
  simp [sha512, wordBytes]

theorem hmacSha512_length (key msg : List Nat) : (hmacSha512 key msg).length = 64 := by
  unfold hmacSha512
  exact sha512_length _

/-! ## Lossy decoding inverts UTF-8 encoding on valid sequences -/

theorem utf8Lossy_one (b : Nat) (h : b < 128) (l : List Nat) :
    utf8Lossy (b :: l) = Char.ofNat b :: utf8Lossy l := by
  rw [utf8Lossy.eq_def]
  simp [h]

theorem utf8Lossy_two (b0 b1 : Nat) (h0 : 194 ≤ b0) (h0' : b0 < 224)
    (h1 : 128 ≤ b1 ∧ b1 < 192) (l : List Nat) :
    utf8Lossy (b0 :: b1 :: l) =
      Char.ofNat ((b0 - 192) * 64 + (b1 - 128)) :: utf8Lossy l := by
  rw [utf8Lossy.eq_def]
  simp [show ¬b0 < 128 by omega, show ¬b0 < 194 by omega, h0', h1]

theorem utf8Lossy_three (b0 b1 b2 : Nat) (h0 : 224 ≤ b0) (h0' : b0 < 240)
    (h1 : utf8Cont3Ok b0 b1) (h2 : 128 ≤ b2 ∧ b2 < 192) (l : List Nat) :
    utf8Lossy (b0 :: b1 :: b2 :: l) =
      Char.ofNat ((b0 - 224) * 4096 + (b1 - 128) * 64 + (b2 - 128)) :: utf8Lossy l := by
  rw [utf8Lossy.eq_def]
  simp [show ¬b0 < 128 by omega, show ¬b0 < 194 by omega, show ¬b0 < 224 by omega,
    h0', h1, h2]

theorem utf8Lossy_four (b0 b1 b2 b3 : Nat) (h0 : 240 ≤ b0) (h0' : b0 < 245)
    (h1 : utf8Cont4Ok b0 b1) (h2 : 128 ≤ b2 ∧ b2 < 192) (h3 : 128 ≤ b3 ∧ b3 < 192)
    (l : List Nat) :
    utf8Lossy (b0 :: b1 :: b2 :: b3 :: l) =
      Char.ofNat ((b0 - 240) * 262144 + (b1 - 128) * 4096 + (b2 - 128) * 64 +
        (b3 - 128)) :: utf8Lossy l := by
  rw [utf8Lossy.eq_def]
  simp [show ¬b0 < 128 by omega, show ¬b0 < 194 by omega, show ¬b0 < 224 by omega,
    show ¬b0 < 240 by omega, h0', h1, h2, h3]

theorem utf8Lossy_nil : utf8Lossy [] = [] := by
  rw [utf8Lossy.eq_def]

theorem utf8Lossy_invalid_hi (b : Nat) (h : 245 ≤ b) (l : List Nat) :
    utf8Lossy (b :: l) = replacementChar :: utf8Lossy l := by
  rw [utf8Lossy.eq_def]
  simp [show ¬b < 128 by omega, show ¬b < 194 by omega, show ¬b < 224 by omega,
    show ¬b < 240 by omega, show ¬b < 245 by omega]

theorem utf8Lossy_charUtf8_append (c : Char) (rest : List Nat) :
    utf8Lossy (charUtf8 c ++ rest) = c :: utf8Lossy rest := by
  have hv : Nat.isValidChar c.toNat := c.valid
  have hb : c.toNat < 55296 ∨ (57343 < c.toNat ∧ c.toNat < 1114112) := hv
  by_cases h1 : c.toNat < 128
  · rw [show charUtf8 c ++ rest = c.toNat :: rest by simp [charUtf8, h1],
      utf8Lossy_one _ h1, Char.ofNat_toNat]
  · by_cases h2 : c.toNat < 2048
    · rw [show charUtf8 c ++ rest =
          (192 + c.toNat / 64) :: (128 + c.toNat % 64) :: rest by
            simp [charUtf8, h1, h2],
        utf8Lossy_two _ _ (by omega) (by omega) (by omega),
        show (192 + c.toNat / 64 - 192) * 64 + (128 + c.toNat % 64 - 128) = c.toNat by
          omega,
        Char.ofNat_toNat]
    · by_cases h3 : c.toNat < 65536
      · rw [show charUtf8 c ++ rest =
            (224 + c.toNat / 4096) :: (128 + c.toNat / 64 % 64) ::
              (128 + c.toNat % 64) :: rest by simp [charUtf8, h1, h2, h3],
          utf8Lossy_three _ _ _ (by omega) (by omega)
            (by unfold utf8Cont3Ok; omega) (by omega),
          show (224 + c.toNat / 4096 - 224) * 4096 + (128 + c.toNat / 64 % 64 - 128) * 64 +
              (128 + c.toNat % 64 - 128) = c.toNat by omega,
          Char.ofNat_toNat]
      · rw [show charUtf8 c ++ rest =
            (240 + c.toNat / 262144) :: (128 + c.toNat / 4096 % 64) ::
              (128 + c.toNat / 64 % 64) :: (128 + c.toNat % 64) :: rest by
                simp [charUtf8, h1, h2, h3],
          utf8Lossy_four _ _ _ _ (by omega) (by omega)
            (by unfold utf8Cont4Ok; omega) (by omega) (by omega),
          show (240 + c.toNat / 262144 - 240) * 262144 + (128 + c.toNat / 4096 % 64 - 128) *
              4096 + (128 + c.toNat / 64 % 64 - 128) * 64 + (128 + c.toNat % 64 - 128) =
              c.toNat by omega,
          Char.ofNat_toNat]

theorem utf8Lossy_flatMap (cs : List Char) : utf8Lossy (cs.flatMap charUtf8) = cs := by
  induction cs with
  | nil => rw [List.flatMap_nil, utf8Lossy.eq_def]
  | cons c cs ih => rw [List.flatMap_cons, utf8Lossy_charUtf8_append, ih]

/-! ## Bounds on parsed timestamps -/

theorem readDigits_lt (n : Nat) : ∀ (acc : Nat) (cs rest : List Char) (v : Nat),
    readDigits n acc cs = some (v, rest) → v < (acc + 1) * 10 ^ n := by
  induction n with
  | zero =>
    intro acc cs rest v h
    simp [readDigits] at h
    omega
  | succ n ih =>
    intro acc cs rest v h
    match cs with
    | [] => simp [readDigits] at h
    | c :: cs' =>
      by_cases hd : isAsciiDigit c
      · simp only [readDigits, if_pos hd] at h
        have hv := ih _ _ _ _ h
        have hdv : c.toNat - 48 ≤ 9 := by
          unfold isAsciiDigit at hd
          simp at hd
          omega
        calc v < (acc * 10 + (c.toNat - 48) + 1) * 10 ^ n := hv
          _ ≤ ((acc + 1) * 10) * 10 ^ n :=
            Nat.mul_le_mul_right _ (by omega)
          _ = (acc + 1) * 10 ^ (n + 1) := by ring
      · simp [readDigits, hd] at h

theorem parseDate_year_lt (cs : List Char) (y mo d : Nat) (rest : List Char)
    (h : parseDate cs = some (y, mo, d, rest)) : y < 10000 := by
  unfold parseDate at h
  split at h
  next => exact Option.noConfusion h
  next y' cs1 heq =>
    have hy := readDigits_lt 4 0 cs cs1 y' heq
    split at h
    next => exact Option.noConfusion h
    next cs2 heq2 =>
      split at h
      next => exact Option.noConfusion h
      next mo' cs3 heq3 =>
        split at h
        next => exact Option.noConfusion h
        next cs4 heq4 =>
          split at h
          next => exact Option.noConfusion h
          next d' cs5 heq5 =>
            simp at h
            omega

theorem parseOffset_bounds (cs : List Char) (off : Int)
    (h : parseOffset cs = some off) : -86340 ≤ off ∧ off ≤ 86340 := by
  match cs with
  | [] => exact Option.noConfusion h
  | c :: cs' =>
    unfold parseOffset at h
    repeat' split at h
    all_goals first
      | exact Option.noConfusion h
      | (simp at h; omega)

theorem daysInMonth_le (y m : Nat) : daysInMonth y m ≤ 31 := by
  unfold daysInMonth
  split_ifs <;> omega

theorem epochFromFields_bounds (y mo d h mi se : Nat) (off : Int)
    (hy : y < 10000) (hmo : 1 ≤ mo ∧ mo ≤ 12) (hd : 1 ≤ d ∧ d ≤ 31)
    (hh : h ≤ 23) (hmi : mi ≤ 59) (hse : se ≤ 60)
    (hoff : -86340 ≤ off ∧ off ≤ 86340) :
    -62167305540 ≤ epochFromFields y mo d h mi se off ∧
      epochFromFields y mo d h mi se off < 2 ^ 38 := by
  simp only [epochFromFields, daysFromCivil]
  split_ifs <;> omega

theorem parseRfc3339_bounds (cs : List Char) (t : Int)
    (h : parseRfc3339 cs = some t) : -62167305540 ≤ t ∧ t < 2 ^ 38 := by
  unfold parseRfc3339 at h
  split at h
  next => exact Option.noConfusion h
  next y mo d cs1 heq1 =>
    split at h
    next => exact Option.noConfusion h
    next cs2 heq2 =>
      split at h
      next => exact Option.noConfusion h
      next hh mi se cs3 heq3 =>
        split at h
        next => exact Option.noConfusion h
        next cs4 heq4 =>
          split at h
          next => exact Option.noConfusion h
          next off heq5 =>
            split at h
            next hg =>
              simp at h
              subst h
              have hdm := daysInMonth_le y mo
              exact epochFromFields_bounds y mo d hh mi se off
                (parseDate_year_lt cs y mo d cs1 heq1)
                ⟨hg.1, hg.2.1⟩ ⟨hg.2.2.1, by omega⟩ hg.2.2.2.2.1 hg.2.2.2.2.2.1
                hg.2.2.2.2.2.2 (parseOffset_bounds cs4 off heq5)
            next => exact Option.noConfusion h

/-! ## Claim theorems -/

/-- C1: for every client_id, client_secret, timestamp, method, endpoint and body
string, `CoinPaymentsClient::generate_signature` equals the hex-encoded
HMAC-SHA-512 of the exact concatenation
client_id + timestamp + uppercase(method) + endpoint + body, in that order with
no separators; the conditional "append body only when non-empty" branch yields
the same string as unconditional concatenation. -/
theorem generate_signature_is_hmac_of_concat
    (client_id client_secret timestamp method endpoint body : String) :
    generate_signature client_id client_secret timestamp method endpoint body =
      generate_hmac_signature client_secret
        (client_id ++ timestamp ++ method.toUpper ++ endpoint ++ body) := by
  by_cases h : body = ""
  · subst h
    simp [generate_signature, String.append_empty]
  · simp [generate_signature, h]

/-- C7: `generate_hmac_signature` is deterministic, and its output is always a
lowercase-hexadecimal string of exactly 128 characters, for keys of any
length. -/
theorem generate_hmac_signature_deterministic_and_hex (key message : String) :
    generate_hmac_signature key message = generate_hmac_signature key message ∧
    (generate_hmac_signature key message).length = 128 ∧
    ∀ c ∈ (generate_hmac_signature key message).data, isLowerHexDigit c := by
  refine ⟨rfl, ?_, ?_⟩
  · show (hexChars (hmacSha512 (strBytes key) (strBytes message))).length = 128
    rw [hexChars_length, hmacSha512_length]
  · intro c hc
    exact hexChars_mem _ c hc

set_option maxRecDepth 100000 in
set_option maxHeartbeats 4000000 in
/-- C2 (counterexample): the claim says `utils::validate_webhook_signature`
computes its expected signature over exactly the raw bytes
client_id ++ timestamp ++ payload.  For the non-UTF-8 payload `[0xFF]`, the
signature computed by HMAC-SHA-512 over those raw bytes is accepted by
`webhooks::verify_webhook_signature` but rejected by
`utils::validate_webhook_signature`, because the latter first passes the
buffer through `String::from_utf8_lossy`, which re-encodes the invalid byte
as U+FFFD. -/
theorem validate_webhook_signature_not_over_raw_bytes :
    verify_webhook_signature "k"
      ⟨"c", "t",
        "b20db78ca61c7df20a45bf83ca3aa2b835a310ca22651327f06cf43b2b7bf19cbb9637fad77e5ef23f27a2cf209d12fbefbe54a644cb049b61ab04cb59b75c52"⟩
      [255] = true ∧
    validate_webhook_signature "k" "c" "t" [255]
      "b20db78ca61c7df20a45bf83ca3aa2b835a310ca22651327f06cf43b2b7bf19cbb9637fad77e5ef23f27a2cf209d12fbefbe54a644cb049b61ab04cb59b75c52" = false := by
  have hdec : utf8Lossy [99, 116, 255] = ['c', 't', replacementChar] := by
    rw [utf8Lossy_one 99 (by omega), utf8Lossy_one 116 (by omega),
      utf8Lossy_invalid_hi 255 (by omega), utf8Lossy_nil]
  refine ⟨by decide, ?_⟩
  show (generate_hmac_signature "k" (String.mk (utf8Lossy [99, 116, 255])) ==
    "b20db78ca61c7df20a45bf83ca3aa2b835a310ca22651327f06cf43b2b7bf19cbb9637fad77e5ef23f27a2cf209d12fbefbe54a644cb049b61ab04cb59b75c52") = false
  rw [hdec]
  decide

set_option maxRecDepth 100000 in
set_option maxHeartbeats 4000000 in
/-- C2 (amended): `webhooks::verify_webhook_signature` computes the expected
signature as HMAC-SHA-512 over exactly the raw bytes
client_id ++ timestamp ++ payload and returns true iff the received signature
equals that hex tag; `utils::validate_webhook_signature` instead computes it
over the UTF-8 re-encoding of the lossy decoding of those bytes, which
coincides with the raw bytes whenever the payload is valid UTF-8 (in
particular the two verifiers agree on every payload that is the UTF-8 byte
sequence of a string); a signature computed with the correct secret over
(client-id, timestamp, payload) verifies true under
`verify_webhook_signature`, and at concrete inputs a single-byte mutation of
the payload, the timestamp, or the client-id makes verification return
false. -/
theorem webhook_signature_verification_spec :
    (∀ (private_key : String) (headers : WebhookHeaders) (payload : List Nat),
        verify_webhook_signature private_key headers payload =
          (hexEncode (hmacSha512 (strBytes private_key)
            (strBytes headers.client_id ++ strBytes headers.timestamp ++ payload)) ==
            headers.signature)) ∧
    (∀ (private_key client_id timestamp : String) (payload : List Nat)
        (received : String),
        validate_webhook_signature private_key client_id timestamp payload received =
          (hexEncode (hmacSha512 (strBytes private_key)
            ((utf8Lossy (strBytes client_id ++ strBytes timestamp ++ payload)).flatMap
              charUtf8)) == received)) ∧
    (∀ (private_key client_id timestamp payload received : String),
        validate_webhook_signature private_key client_id timestamp (strBytes payload)
            received =
          verify_webhook_signature private_key ⟨client_id, timestamp, received⟩
            (strBytes payload)) ∧
    (∀ (private_key client_id timestamp : String) (payload : List Nat),
        verify_webhook_signature private_key
          ⟨client_id, timestamp,
            hexEncode (hmacSha512 (strBytes private_key)
              (strBytes client_id ++ strBytes timestamp ++ payload))⟩ payload = true) ∧
    (verify_webhook_signature "k"
        ⟨"c", "t", "13b13a895c9948e0885a7cb2bfbd1caa5019b1bcb1cb410d72a24beb40da764a2e9a47117b4b1231e2c14d4d1faf6c2c7bc742f12878787beb94e03a7221c09e"⟩ [112] = true ∧
      verify_webhook_signature "k"
        ⟨"c", "t", "13b13a895c9948e0885a7cb2bfbd1caa5019b1bcb1cb410d72a24beb40da764a2e9a47117b4b1231e2c14d4d1faf6c2c7bc742f12878787beb94e03a7221c09e"⟩ [113] = false ∧
      verify_webhook_signature "k"
        ⟨"c", "u", "13b13a895c9948e0885a7cb2bfbd1caa5019b1bcb1cb410d72a24beb40da764a2e9a47117b4b1231e2c14d4d1faf6c2c7bc742f12878787beb94e03a7221c09e"⟩ [112] = false ∧
      verify_webhook_signature "k"
        ⟨"d", "t", "13b13a895c9948e0885a7cb2bfbd1caa5019b1bcb1cb410d72a24beb40da764a2e9a47117b4b1231e2c14d4d1faf6c2c7bc742f12878787beb94e03a7221c09e"⟩ [112] = false) :=
  have hagree : ∀ (private_key client_id timestamp payload received : String),
      validate_webhook_signature private_key client_id timestamp (strBytes payload)
          received =
        verify_webhook_signature private_key ⟨client_id, timestamp, received⟩
          (strBytes payload) := by
    intro pk cid ts p recv
    have hdata : utf8Lossy (strBytes cid ++ strBytes ts ++ strBytes p) =
        cid.data ++ ts.data ++ p.data := by
      rw [show strBytes cid ++ strBytes ts ++ strBytes p =
          (cid.data ++ ts.data ++ p.data).flatMap charUtf8 by
            simp [strBytes, List.flatMap_append], utf8Lossy_flatMap]
    simp only [validate_webhook_signature, verify_webhook_signature,
      generate_hmac_signature, hdata]
    simp [strBytes, List.flatMap_append]
  ⟨fun _ _ _ => rfl,
   fun _ _ _ _ _ => rfl,
   hagree,
   fun pk cid ts payload => by simp [verify_webhook_signature],
   by decide, by decide, by decide, by decide⟩

/-- C4: for every tolerance and every RFC3339-parseable timestamp at or after
the Unix epoch, `is_webhook_timestamp_valid` returns true iff
now - timestamp (saturating subtraction in whole seconds) is at most the
tolerance (so a timestamp exactly at the boundary passes and a future
timestamp always passes), and an unparseable timestamp returns false. -/
theorem is_webhook_timestamp_valid_spec (now tolerance_seconds : Nat) (s : String) :
    (∀ t : Int, parseRfc3339 s.data = some t → 0 ≤ t →
      ((is_webhook_timestamp_valid now s tolerance_seconds = true) ↔
        now - t.toNat ≤ tolerance_seconds)) ∧
    (parseRfc3339 s.data = none →
      is_webhook_timestamp_valid now s tolerance_seconds = false) ∧
    (∀ t : Int, parseRfc3339 s.data = some t → 0 ≤ t → now ≤ t.toNat →
      is_webhook_timestamp_valid now s tolerance_seconds = true) := by
  refine ⟨?_, ?_, ?_⟩
  · intro t hp ht
    have hb := parseRfc3339_bounds s.data t hp
    have hcast : rustCastU64 t = t.toNat := by
      unfold rustCastU64
      omega
    unfold is_webhook_timestamp_valid
    rw [hp]
    show decide (now - rustCastU64 t ≤ tolerance_seconds) = true ↔ _
    rw [hcast]
    exact ⟨of_decide_eq_true, decide_eq_true⟩
  · intro hp
    unfold is_webhook_timestamp_valid
    rw [hp]
  · intro t hp ht hnow
    have hb := parseRfc3339_bounds s.data t hp
    have hcast : rustCastU64 t = t.toNat := by
      unfold rustCastU64
      omega
    unfold is_webhook_timestamp_valid
    rw [hp]
    show decide (now - rustCastU64 t ≤ tolerance_seconds) = true
    rw [hcast]
    exact decide_eq_true (by omega)

/-- C4 witness: at the concrete timestamp 2023-01-01T00:00:00Z (epoch
1672531200): equal-to-now passes with tolerance 300, the exact 300-second
boundary passes, 600 seconds in the past fails, a future timestamp passes,
and an unparseable string returns false. -/
theorem is_webhook_timestamp_valid_spec_witness :
    (is_webhook_timestamp_valid 1672531200 "2023-01-01T00:00:00Z" 300 = true) ∧
    (is_webhook_timestamp_valid 1672531500 "2023-01-01T00:00:00Z" 300 = true) ∧
    (is_webhook_timestamp_valid 1672531800 "2023-01-01T00:00:00Z" 300 = false) ∧
    (is_webhook_timestamp_valid 1672530000 "2023-01-01T00:00:00Z" 300 = true) ∧
    (is_webhook_timestamp_valid 1672531200 "not-a-timestamp" 300 = false) := by
  refine ⟨?_, ?_, ?_, ?_, ?_⟩
  · exact ((is_webhook_timestamp_valid_spec 1672531200 300 "2023-01-01T00:00:00Z").1
      1672531200 (by decide) (by decide)).mpr (by decide)
  · exact ((is_webhook_timestamp_valid_spec 1672531500 300 "2023-01-01T00:00:00Z").1
      1672531200 (by decide) (by decide)).mpr (by decide)
  · cases hb : is_webhook_timestamp_valid 1672531800 "2023-01-01T00:00:00Z" 300 with
    | false => rfl
    | true =>
      have hc := ((is_webhook_timestamp_valid_spec 1672531800 300
        "2023-01-01T00:00:00Z").1 1672531200 (by decide) (by decide)).mp hb
      omega
  · exact (is_webhook_timestamp_valid_spec 1672530000 300 "2023-01-01T00:00:00Z").2.2
      1672531200 (by decide) (by decide) (by decide)
  · exact (is_webhook_timestamp_valid_spec 1672531200 300 "not-a-timestamp").2.1
      (by decide)

/-- C9: an RFC3339-parseable timestamp strictly before the Unix epoch has a
negative `timestamp()` value; the `as u64` cast wraps it to `2 ^ 64 + t`,
which exceeds any realistic current time, so the saturating subtraction
yields 0 and `is_webhook_timestamp_valid` accepts the timestamp for any
tolerance; `iso8601_to_timestamp` performs the same wrapping cast. -/
theorem pre_epoch_timestamp_always_fresh (now tolerance_seconds : Nat) (s : String)
    (t : Int) (hp : parseRfc3339 s.data = some t) (ht : t < 0) (hnow : now ≤ 2 ^ 63) :
    rustCastU64 t = (2 ^ 64 + t).toNat ∧
    now < rustCastU64 t ∧
    is_webhook_timestamp_valid now s tolerance_seconds = true ∧
    iso8601_to_timestamp s = .ok (rustCastU64 t) := by
  have hb := parseRfc3339_bounds s.data t hp
  have hcast : rustCastU64 t = (2 ^ 64 + t).toNat := by
    unfold rustCastU64
    omega
  have hlt : now < rustCastU64 t := by
    rw [hcast]
    omega
  refine ⟨hcast, hlt, ?_, ?_⟩
  · unfold is_webhook_timestamp_valid
    rw [hp]
    show decide (now - rustCastU64 t ≤ tolerance_seconds) = true
    exact decide_eq_true (by omega)
  · unfold iso8601_to_timestamp
    rw [hp]

/-- C9 witness: 1960-01-01T00:00:00Z parses to -315619200; with
now = 1700000000 it is accepted even with tolerance 0, and
`iso8601_to_timestamp` returns the wrapped value `2 ^ 64 - 315619200`. -/
theorem pre_epoch_timestamp_always_fresh_witness :
    parseRfc3339 "1960-01-01T00:00:00Z".data = some (-315619200) ∧
    is_webhook_timestamp_valid 1700000000 "1960-01-01T00:00:00Z" 0 = true ∧
    iso8601_to_timestamp "1960-01-01T00:00:00Z" = .ok 18446744073393932416 := by
  have h := pre_epoch_timestamp_always_fresh 1700000000 0 "1960-01-01T00:00:00Z"
    (-315619200) (by decide) (by decide) (by decide)
  refine ⟨by decide, h.2.2.1, ?_⟩
  rw [h.2.2.2, show rustCastU64 (-315619200) = 18446744073393932416 from by decide]

/-- C3: for every success-status response, `handle_response` first attempts
to decode the body directly as the expected type and returns that value on
success; if direct decode fails, an envelope carrying an error object yields
an Api error whose message contains the envelope's error message, an
envelope carrying a data field yields that inner data, an envelope with
neither yields a "No data in response" error, and a body failing both
decodes yields an error, never a silent success. -/
theorem handle_response_success_spec {α : Type} (decodeT : Json → Option α)
    (status : Nat) (j : Json) (response_text : String)
    (hs : 200 ≤ status ∧ status < 300) :
    (∀ v, decodeT j = some v →
      handle_response decodeT status (some j) response_text = .ok v) ∧
    (decodeT j = none →
      (∀ env e, decodeApiResponse decodeT j = some env → env.error = some e →
        handle_response decodeT status (some j) response_text =
          .error (.Api ("API Error: " ++ e.message)) ∧
        ∃ pre post, "API Error: " ++ e.message = pre ++ (e.message ++ post)) ∧
      (∀ env d, decodeApiResponse decodeT j = some env → env.error = none →
        env.data = some d →
        handle_response decodeT status (some j) response_text = .ok d) ∧
      (∀ env, decodeApiResponse decodeT j = some env → env.error = none →
        env.data = none →
        handle_response decodeT status (some j) response_text =
          .error (.Api "No data in response")) ∧
      (decodeApiResponse decodeT j = none →
        ∃ msg, handle_response decodeT status (some j) response_text =
          .error (.Api msg))) := by
  have hsucc : statusIsSuccess status = true := by
    unfold statusIsSuccess
    simp
    omega
  constructor
  · intro v hv
    simp [handle_response, hsucc, hv]
  · intro h0
    refine ⟨?_, ?_, ?_, ?_⟩
    · intro env e h1 h2
      refine ⟨by simp [handle_response, hsucc, h0, h1, h2], "API Error: ", "", ?_⟩
      rw [String.append_empty]
    · intro env d h1 h2 h3
      simp [handle_response, hsucc, h0, h1, h2, h3]
    · intro env h1 h2 h3
      simp [handle_response, hsucc, h0, h1, h2, h3]
    · intro h1
      exact ⟨"Failed to parse response - Response: " ++ response_text,
        by simp [handle_response, hsucc, h0, h1]⟩

/-- C3 witness: with the `PingResponse` decoder at status 200, the body
`{"error": {"code": "x", "message": "bad"}}` fails with an API error
carrying "bad", `{"data": {...}, "error": null}` returns the inner data, and
an empty object yields "No data in response". -/
theorem handle_response_success_spec_witness :
    handle_response decodePingResponse 200
      (some (Json.obj [("error", Json.obj [("code", Json.str "x"),
        ("message", Json.str "bad")])])) "raw" = .error (.Api "API Error: bad") ∧
    handle_response decodePingResponse 200
      (some (Json.obj [("data", Json.obj [("message", Json.str "pong"),
        ("timestamp", Json.str "ts"), ("version", Json.str "1")]),
        ("error", Json.null)])) "raw" = .ok ⟨"pong", "ts", "1"⟩ ∧
    handle_response decodePingResponse 200 (some (Json.obj [])) "raw" =
      .error (.Api "No data in response") := by
  refine ⟨?_, ?_, ?_⟩
  · exact (((handle_response_success_spec decodePingResponse 200
      (Json.obj [("error", Json.obj [("code", Json.str "x"),
        ("message", Json.str "bad")])]) "raw" ⟨by omega, by omega⟩).2 rfl).1
      ⟨none, some ⟨"x", "bad", none⟩, none⟩ ⟨"x", "bad", none⟩ rfl rfl).1
  · exact ((handle_response_success_spec decodePingResponse 200
      (Json.obj [("data", Json.obj [("message", Json.str "pong"),
        ("timestamp", Json.str "ts"), ("version", Json.str "1")]),
        ("error", Json.null)]) "raw" ⟨by omega, by omega⟩).2 rfl).2.1
      ⟨some ⟨"pong", "ts", "1"⟩, none, none⟩ ⟨"pong", "ts", "1"⟩ rfl rfl rfl
  · exact ((handle_response_success_spec decodePingResponse 200
      (Json.obj []) "raw" ⟨by omega, by omega⟩).2 rfl).2.2.1
      ⟨none, none, none⟩ rfl rfl rfl

/-- C5: for every non-success status, `handle_response` returns a failure
and never a success: 401 maps to Authentication, 404 to NotFound, 429 to
RateLimit, and every other non-success status to a generic Api error whose
message contains the status code and the message extracted from the body
(the string value of the `error` JSON field if present, else of the
`message` JSON field, else the raw body text). -/
theorem handle_response_error_spec {α : Type} (decodeT : Json → Option α)
    (status : Nat) (body : Option Json) (response_text : String)
    (hs : ¬(200 ≤ status ∧ status < 300)) :
    (∃ e, handle_response decodeT status body response_text = .error e) ∧
    (status = 401 →
      handle_response decodeT status body response_text = .error .Authentication) ∧
    (status = 404 →
      handle_response decodeT status body response_text = .error .NotFound) ∧
    (status = 429 →
      handle_response decodeT status body response_text = .error .RateLimit) ∧
    (status ≠ 401 → status ≠ 404 → status ≠ 429 →
      handle_response decodeT status body response_text =
        .error (.Api ("HTTP " ++ toString status ++ ": " ++
          extract_api_error_message body response_text))) ∧
    (∀ j m, body = some j → (jsonGet j "error").bind valueAsStr = some m →
      extract_api_error_message body response_text = m) ∧
    (∀ j m, body = some j → (jsonGet j "error").bind valueAsStr = none →
      (jsonGet j "message").bind valueAsStr = some m →
      extract_api_error_message body response_text = m) ∧
    (∀ j, body = some j → (jsonGet j "error").bind valueAsStr = none →
      (jsonGet j "message").bind valueAsStr = none →
      extract_api_error_message body response_text = response_text) ∧
    (body = none →
      extract_api_error_message body response_text = response_text) := by
  have hfail : statusIsSuccess status = false := by
    unfold statusIsSuccess
    simp
    omega
  have hgen : handle_response decodeT status body response_text =
      .error (
        if status = 401 then .Authentication
        else if status = 404 then .NotFound
        else if status = 429 then .RateLimit
        else .Api ("HTTP " ++ toString status ++ ": " ++
          extract_api_error_message body response_text)) := by
    simp [handle_response, hfail]
  refine ⟨?_, ?_, ?_, ?_, ?_, ?_, ?_, ?_, ?_⟩
  · exact ⟨_, hgen⟩
  · intro h
    subst h
    rw [hgen]
    simp
  · intro h
    subst h
    rw [hgen]
    simp
  · intro h
    subst h
    rw [hgen]
    simp
  · intro h1 h2 h3
    rw [hgen, if_neg h1, if_neg h2, if_neg h3]
  · intro j m hb he
    simp [extract_api_error_message, hb, he]
  · intro j m hb he hm
    simp [extract_api_error_message, hb, he, hm]
  · intro j hb he hm
    simp [extract_api_error_message, hb, he, hm]
  · intro hb
    simp [extract_api_error_message, hb]

/-- C5 witness: status 401/404/429 map to their error kinds regardless of
body; status 500 with body `{"error": "boom"}` yields the generic Api error
carrying the status and "boom"; and the extraction fallback chain is
exercised on `message`-only, no-string-field, and unparseable bodies. -/
theorem handle_response_error_spec_witness :
    handle_response decodePingResponse 401 none "x" =
      .error .Authentication ∧
    handle_response decodePingResponse 404 none "x" = .error .NotFound ∧
    handle_response decodePingResponse 429 none "x" = .error .RateLimit ∧
    handle_response decodePingResponse 500
      (some (Json.obj [("error", Json.str "boom")])) "raw" =
      .error (.Api ("HTTP " ++ toString 500 ++ ": " ++
        extract_api_error_message (some (Json.obj [("error", Json.str "boom")]))
          "raw")) ∧
    extract_api_error_message (some (Json.obj [("error", Json.str "boom")]))
      "raw" = "boom" ∧
    extract_api_error_message (some (Json.obj [("message", Json.str "msg")]))
      "raw" = "msg" ∧
    extract_api_error_message (some (Json.obj [("other", Json.num 1)]))
      "raw" = "raw" ∧
    extract_api_error_message none "nope" = "nope" := by
  refine ⟨?_, ?_, ?_, ?_, ?_, ?_, ?_, ?_⟩
  · exact (handle_response_error_spec decodePingResponse 401 none "x"
      (by omega)).2.1 rfl
  · exact (handle_response_error_spec decodePingResponse 404 none "x"
      (by omega)).2.2.1 rfl
  · exact (handle_response_error_spec decodePingResponse 429 none "x"
      (by omega)).2.2.2.1 rfl
  · exact (handle_response_error_spec decodePingResponse 500
      (some (Json.obj [("error", Json.str "boom")])) "raw"
      (by omega)).2.2.2.2.1 (by omega) (by omega) (by omega)
  · exact (handle_response_error_spec decodePingResponse 500
      (some (Json.obj [("error", Json.str "boom")])) "raw"
      (by omega)).2.2.2.2.2.1 _ _ rfl rfl
  · exact (handle_response_error_spec decodePingResponse 500
      (some (Json.obj [("message", Json.str "msg")])) "raw"
      (by omega)).2.2.2.2.2.2.1 _ _ rfl rfl rfl
  · exact (handle_response_error_spec decodePingResponse 500
      (some (Json.obj [("other", Json.num 1)])) "raw"
      (by omega)).2.2.2.2.2.2.2.1 _ rfl rfl rfl
  · exact (handle_response_error_spec decodePingResponse 500 none "nope"
      (by omega)).2.2.2.2.2.2.2.2 rfl

/-- C6: `parse_webhook_headers` returns Ok with the three values exactly
when the map contains all of X-CoinPayments-Client, X-CoinPayments-Timestamp
and X-CoinPayments-Signature; a missing header is a failure naming that
specific header (checked in that order), and the Ok values are exactly the
looked-up ones, never inferred or defaulted. -/
theorem parse_webhook_headers_spec (header_map : String → Option String) :
    ((parse_webhook_headers header_map).isOk = true ↔
      (header_map "X-CoinPayments-Client").isSome = true ∧
      (header_map "X-CoinPayments-Timestamp").isSome = true ∧
      (header_map "X-CoinPayments-Signature").isSome = true) ∧
    (∀ c t s, header_map "X-CoinPayments-Client" = some c →
      header_map "X-CoinPayments-Timestamp" = some t →
      header_map "X-CoinPayments-Signature" = some s →
      parse_webhook_headers header_map = .ok ⟨c, t, s⟩) ∧
    (header_map "X-CoinPayments-Client" = none →
      parse_webhook_headers header_map =
        .error (.Api "Missing X-CoinPayments-Client header")) ∧
    (∀ c, header_map "X-CoinPayments-Client" = some c →
      header_map "X-CoinPayments-Timestamp" = none →
      parse_webhook_headers header_map =
        .error (.Api "Missing X-CoinPayments-Timestamp header")) ∧
    (∀ c t, header_map "X-CoinPayments-Client" = some c →
      header_map "X-CoinPayments-Timestamp" = some t →
      header_map "X-CoinPayments-Signature" = none →
      parse_webhook_headers header_map =
        .error (.Api "Missing X-CoinPayments-Signature header")) := by
  refine ⟨?_, ?_, ?_, ?_, ?_⟩
  · rcases hc : header_map "X-CoinPayments-Client" with - | c <;>
      rcases ht : header_map "X-CoinPayments-Timestamp" with - | t <;>
      rcases hsg : header_map "X-CoinPayments-Signature" with - | s <;>
      simp [parse_webhook_headers, hc, ht, hsg, Except.isOk, Except.toBool]
  · intro c t s hc ht hsg
    simp [parse_webhook_headers, hc, ht, hsg]
  · intro hc
    simp [parse_webhook_headers, hc]
  · intro c hc ht
    simp [parse_webhook_headers, hc, ht]
  · intro c t hc ht hsg
    simp [parse_webhook_headers, hc, ht, hsg]

/-- C6 witness: a map with all three headers parses to exactly those values;
a map missing the timestamp fails naming X-CoinPayments-Timestamp. -/
theorem parse_webhook_headers_spec_witness :
    parse_webhook_headers (fun k =>
        if k = "X-CoinPayments-Client" then some "cid"
        else if k = "X-CoinPayments-Timestamp" then some "ts"
        else if k = "X-CoinPayments-Signature" then some "sig"
        else none) = .ok ⟨"cid", "ts", "sig"⟩ ∧
    parse_webhook_headers (fun k =>
        if k = "X-CoinPayments-Client" then some "cid"
        else if k = "X-CoinPayments-Signature" then some "sig"
        else none) =
      .error (.Api "Missing X-CoinPayments-Timestamp header") := by
  constructor
  · exact (parse_webhook_headers_spec _).2.1 "cid" "ts" "sig"
      (by decide) (by decide) (by decide)
  · exact (parse_webhook_headers_spec _).2.2.2.1 "cid" (by decide) (by decide)

/-- C8: for per_page ≥ 1 and total + per_page - 1 within u32 range,
`calculate_pagination` echoes page, per_page and total unchanged and returns
total_pages = ⌈total / per_page⌉ (characterized by
total ≤ total_pages * per_page < total + per_page), has_next = (page <
total_pages) and has_prev = (page > 1). -/
theorem calculate_pagination_spec (total page per_page : Nat)
    (hp : 1 ≤ per_page) (hb : total + per_page - 1 < 2 ^ 32) :
    ∃ info, calculate_pagination total page per_page = some info ∧
      info.page = page ∧ info.per_page = per_page ∧ info.total = total ∧
      total ≤ info.total_pages * per_page ∧
      info.total_pages * per_page < total + per_page ∧
      info.has_next = decide (page < info.total_pages) ∧
      info.has_prev = decide (1 < page) := by
  have hz : ¬per_page = 0 := by omega
  have hw : ((total + per_page) % 2 ^ 32 + 2 ^ 32 - 1) % 2 ^ 32 =
      total + per_page - 1 := by omega
  refine ⟨_, by rw [calculate_pagination, if_neg hz], rfl, rfl, rfl, ?_, ?_, rfl, rfl⟩
  all_goals
    simp only [hw]
    obtain ⟨a, ha⟩ : ∃ a, total + per_page = a + 1 := ⟨total + per_page - 1, by omega⟩
    rw [show total + per_page - 1 = a by omega]
    have h1 := Nat.div_add_mod a per_page
    rw [Nat.mul_comm] at h1
    have h2 : a % per_page < per_page := Nat.mod_lt _ (by omega)
    obtain ⟨X, hX⟩ : ∃ X, a / per_page * per_page = X := ⟨_, rfl⟩
    obtain ⟨M, hM⟩ : ∃ M, a % per_page = M := ⟨_, rfl⟩
    rw [hX, hM] at h1
    rw [hM] at h2
    rw [hX]
    omega

/-- C8 witness: total=25, page=2, per_page=10 gives total_pages=3 (the
unique value with 25 ≤ 3*10 < 35), has_next=true, has_prev=true. -/
theorem calculate_pagination_spec_witness :
    ∃ info, calculate_pagination 25 2 10 = some info ∧
      info.page = 2 ∧ info.per_page = 10 ∧ info.total = 25 ∧
      25 ≤ info.total_pages * 10 ∧ info.total_pages * 10 < 25 + 10 ∧
      info.has_next = decide (2 < info.total_pages) ∧
      info.has_prev = decide (1 < 2) :=
  calculate_pagination_spec 25 2 10 (by decide) (by decide)

/-- C10: `calculate_pagination` has no input guard: with per_page = 0 the
ceiling-division expression divides by zero and the call panics (embedded as
`none`) for every total and page, in every build profile; under the claimed
precondition per_page ≥ 1 and total + per_page - 1 within u32 range it
returns a value. -/
theorem calculate_pagination_zero_per_page (total page : Nat) :
    calculate_pagination total page 0 = none ∧
    (∀ per_page, 1 ≤ per_page → total + per_page - 1 < 2 ^ 32 →
      (calculate_pagination total page per_page).isSome = true) := by
  constructor
  · simp [calculate_pagination]
  · intro pp hpp hb
    simp [calculate_pagination, show ¬pp = 0 by omega]

/-- C10 witness: per_page = 0 panics at total=7, page=1; per_page = 5
returns a value there. -/
theorem calculate_pagination_zero_per_page_witness :
    calculate_pagination 7 1 0 = none ∧
    (calculate_pagination 7 1 5).isSome = true := by
  obtain ⟨h1, h2⟩ := calculate_pagination_zero_per_page 7 1
  exact ⟨h1, h2 5 (by decide) (by decide)⟩

end CoinPayments

